import Mathlib

set_option linter.unusedVariables false

/-!
Verification development for the titanpl request runtime: a shallow embedding
of the worker pool dispatcher, the drift record/replay engine, the static
action analyzer (fast path), the dynamic route matcher and the sandboxed
file read, together with theorems settling the specified properties.

All definitions are translated from the Rust sources under the repository
templates (ts/server, js/server, rust-ts/server); where a native binding is
absent from the sources, its model is marked as modelled from the spec.
-/

namespace Titan

/-- JSON values as held by the runtime (serde_json::Value). JavaScript
numbers are modelled as integers: the analyzer only ever builds numbers out
of numeric literals, addition and negation, and the NaN/Infinity rejection
in number_to_json makes the accepted fragment exact on integers. -/
inductive JValue where
  | null
  | bool (b : Bool)
  | num (n : Int)
  | str (s : String)
  | arr (elems : List JValue)
  | obj (fields : List (String × JValue))

/-- Field lookup on a JSON object, as serde_json Value.get on a key: only
objects answer, first binding of the key wins. -/
def jGet (v : JValue) (k : String) : Option JValue :=
  match v with
  | .obj fields => (fields.find? (fun p => p.1 == k)).map (·.2)
  | _ => none

/-- String content of a JSON value, as serde_json Value.as_str. -/
def jAsStr : JValue → Option String
  | .str s => some s
  | _ => none

/-- Association list lookup, modelling HashMap.get. -/
def alFind [DecidableEq κ] (k : κ) : List (κ × α) → Option α
  | [] => none
  | (k2, v) :: rest => if k2 = k then some v else alFind k rest

/-- Association list insert, modelling HashMap.insert (overwrite if the key
is present, append otherwise). -/
def alInsert [DecidableEq κ] (k : κ) (v : α) : List (κ × α) → List (κ × α)
  | [] => [(k, v)]
  | (k2, v2) :: rest =>
      if k2 = k then (k2, v) :: rest else (k2, v2) :: alInsert k v rest

/-- Association list removal, modelling HashMap.remove. -/
def alErase [DecidableEq κ] (k : κ) (l : List (κ × α)) : List (κ × α) :=
  l.filter (fun p => p.1 ≠ k)

/-- Boolean list-prefix test on characters. -/
def charsLeadWith : List Char → List Char → Bool
  | [], _ => true
  | _ :: _, [] => false
  | a :: as2, b :: bs => a == b && charsLeadWith as2 bs

/-- Boolean contiguous-sublist test on characters. -/
def charsContainRun (needle : List Char) : List Char → Bool
  | [] => charsLeadWith needle []
  | c :: rest => charsLeadWith needle (c :: rest) || charsContainRun needle rest

/-- Substring test, modelling Rust str::contains with a literal pattern. -/
def strContains (haystack needle : String) : Bool :=
  charsContainRun needle.toList haystack.toList

theorem alFind_insert_self [DecidableEq κ] (k : κ) (v : α) (l : List (κ × α)) :
    alFind k (alInsert k v l) = some v := by
  induction l with
  | nil => simp [alInsert, alFind]
  | cons hd tl ih =>
      rcases hd with ⟨k2, v2⟩
      by_cases h : k2 = k <;> simp [alInsert, alFind, h, ih]

theorem alFind_insert_ne [DecidableEq κ] (k k2 : κ) (v : α) (l : List (κ × α))
    (h : k2 ≠ k) :
    alFind k2 (alInsert k v l) = alFind k2 l := by
  have h2 : k ≠ k2 := Ne.symm h
  induction l with
  | nil => simp [alInsert, alFind, h2]
  | cons hd tl ih =>
      rcases hd with ⟨k3, v3⟩
      by_cases h3 : k3 = k
      · subst h3
        simp [alInsert, alFind, h2]
      · simp [alInsert, alFind, h3, ih]

/-!
Worker runtime state and the Resume handler, embedded from
templates/ts/server/src/runtime.rs (handle_resume, handle_new_request) and
templates/js/server/src/extensions/mod.rs (TitanRuntime,
execute_action_optimized). The js template runs the same per-isolate logic
behind a mutex; the embedded state transitions are identical.
-/

/-- RequestData as stored in active_requests for replay (body bytes kept as
a string, headers/params/query as pair lists). -/
structure RequestData where
  action_name : String
  body : Option String
  method : String
  path : String
  headers : List (String × String)
  params : List (String × String)
  query : List (String × String)

/-- Per-worker runtime state (TitanRuntime). pending_requests keeps the ids
whose oneshot reply sender is still live; delivered is the ghost trace of
results sent through those senders. duration_ms values are carried as Nat
(their arithmetic is never needed by the properties below). -/
structure RtState where
  drift_counter : Nat
  request_counter : Nat
  pending_requests : List Nat
  active_requests : List (Nat × RequestData)
  request_start_counters : List (Nat × Nat)
  drift_to_request : List (Nat × Nat)
  completed_drifts : List (Nat × JValue)
  request_timings : List (Nat × List (String × Nat))
  delivered : List (Nat × JValue)

/-- Timing label chosen by handle_resume: drift_error when the async result
carries an error field, drift otherwise. -/
def timingLabel (result : JValue) : String :=
  if (jGet result "error").isSome then "drift_error" else "drift"

/-- Push one (label, duration) entry onto the timing list of a request,
modelling request_timings.entry(req).or_default().push(..). -/
def pushTiming (req_id : Nat) (entry : String × Nat)
    (l : List (Nat × List (String × Nat))) : List (Nat × List (String × Nat)) :=
  alInsert req_id ((alFind req_id l).getD [] ++ [entry]) l

/-- Steps 2 and 3 of handle_resume: record the timing under the resolved
request id and memoize the drift result under the drift id. -/
def resume_record (req_id drift_id : Nat) (result : JValue) (duration_ms : Nat)
    (rt : RtState) : RtState :=
  { rt with
    request_timings := pushTiming req_id (timingLabel result, duration_ms) rt.request_timings,
    completed_drifts := alInsert drift_id result rt.completed_drifts }

/-- Step 5 of handle_resume: once the pending entry is gone (and the request
id is a real one), drop the active-request record and the start-counter
snapshot. -/
def resume_cleanup (req_id : Nat) (rt : RtState) : RtState :=
  if req_id ≠ 0 ∧ rt.pending_requests.contains req_id = false then
    { rt with
      active_requests := alErase req_id rt.active_requests,
      request_start_counters := alErase req_id rt.request_start_counters }
  else rt

/-- handle_resume from templates/ts/server/src/runtime.rs (the js template
is identical modulo the isolate lookup). The re-execution of the action by
execute_action_optimized is abstracted as the oracle exec, invoked exactly
when the request is still active, on the state whose drift counter has been
rewound to the request start snapshot. -/
def handle_resume (exec : RtState → Nat → RtState) (drift_id : Nat)
    (result : JValue) (duration_ms : Nat) (rt : RtState) : RtState :=
  let req_id := (alFind drift_id rt.drift_to_request).getD 0
  let rt2 := resume_record req_id drift_id result duration_ms rt
  let rt3 :=
    match alFind req_id rt2.active_requests with
    | some _ =>
        let start_counter := (alFind req_id rt2.request_start_counters).getD 0
        exec { rt2 with drift_counter := start_counter } req_id
    | none => rt2
  resume_cleanup req_id rt3

/-- Outcome of the V8 call of the action function inside
execute_action_optimized: it either ran to completion (a value or an
in-action finish) or threw, with the caught message. -/
inductive JsOutcome where
  | completed
  | threw (msg : String)

/-- Error-shaped result built by execute_action_optimized for a real action
error, as serde json with a single error field. -/
def errorResult (msg : String) : JValue :=
  JValue.obj [("error", JValue.str msg)]

/-- Reaction of execute_action_optimized
(templates/js/server/src/extensions/mod.rs) to the outcome of the action
invocation. rt is the runtime state as of the end of the V8 call (drift
bindings may already have updated it); action_found tells whether the
action name resolved in the actions map. A caught message containing
SUSPEND is the suspension sentinel: nothing happens. Any other message is a
real action error: the pending entry is removed and, when it was present,
the error-shaped result is delivered on its reply channel. -/
def execute_action_optimized (rt : RtState) (request_id : Nat)
    (action_found : Bool) (outcome : JsOutcome) : RtState :=
  if action_found then
    match outcome with
    | .completed => rt
    | .threw msg =>
        if strContains msg "SUSPEND" then rt
        else if rt.pending_requests.contains request_id then
          { rt with
            pending_requests := rt.pending_requests.erase request_id,
            delivered := rt.delivered ++ [(request_id, errorResult msg)] }
        else rt
  else if rt.pending_requests.contains request_id then
    { rt with
      pending_requests := rt.pending_requests.erase request_id,
      delivered := rt.delivered ++ [(request_id, errorResult "Action not found")] }
  else rt

/-- Status chosen by the HTTP collaborator (dynamic_handler_inner in
templates/ts/server/src/main.rs): a worker result carrying an error field
is surfaced as INTERNAL_SERVER_ERROR (500); otherwise the 200 JSON branch
applies. -/
def surfaceStatus (result : JValue) : Nat :=
  if (jGet result "error").isSome then 500 else 200

/-- Modelled from the spec: the native t._finish_request binding lives in
extensions/builtin.rs, which is not under src/. Per the spec (final value
delivered to result_delivery) and the source comment in
templates/js/server/src/runtime.rs (pending_requests will not have the key,
removed by t._finish_request), it delivers the final value on the reply
channel of the request and removes the pending entry. -/
def finish_request (final : JValue) : RtState → Nat → RtState :=
  fun rt req_id =>
    { rt with
      pending_requests := rt.pending_requests.erase req_id,
      delivered := rt.delivered ++ [(req_id, final)] }

/-- Modulus of the 32-bit drift counter. -/
def U32_MOD : Nat := 2 ^ 32

/-- Modelled from the spec: the native drift binding (extensions/builtin.rs,
not under src/) assigns drift_id := ++drift_counter (pre-incremented u32)
and records drift_to_request[drift_id] := request_id. -/
def drift_assign (rt : RtState) (request_id : Nat) : RtState × Nat :=
  let id := (rt.drift_counter + 1) % U32_MOD
  ({ rt with
     drift_counter := id,
     drift_to_request := alInsert id request_id rt.drift_to_request }, id)

/-- Ids issued by k successive drift calls of one execution attempt,
collected in call order. -/
def drift_run : RtState → Nat → Nat → RtState × List Nat
  | rt, _, 0 => (rt, [])
  | rt, request_id, Nat.succ k =>
      let p := drift_assign rt request_id
      let q := drift_run p.1 request_id k
      (q.1, p.2 :: q.2)

theorem drift_run_ids (rt : RtState) (request_id k : Nat) :
    (drift_run rt request_id k).2
      = (List.range k).map (fun i => (rt.drift_counter + i + 1) % U32_MOD) := by
  induction k generalizing rt with
  | zero => simp [drift_run]
  | succ k ih =>
      simp only [drift_run, drift_assign, List.range_succ_eq_map, List.map_cons,
        List.map_map, List.cons.injEq]
      refine ⟨by simp, ?_⟩
      rw [ih]
      refine List.map_congr_left ?_
      intro i hi
      simp only [Function.comp_apply]
      have h1 : (rt.drift_counter + 1) % U32_MOD + i + 1
          = (rt.drift_counter + 1) % U32_MOD + (i + 1) := by omega
      rw [h1, Nat.mod_add_mod]
      congr 1
      omega

/-- C1: on a Resume for a drift id d that maps to a still-active request R,
the worker memoizes the result under key d, re-executes the action on the
state whose drift counter has been rewound to request_start_counters[R],
and any replay attempt started from that rewound counter re-issues the same
drift ids in the same order: the contiguous range starting at
request_start_counters[R] + 1. -/
theorem handle_resume_C1
    (exec : RtState → Nat → RtState) (d : Nat) (res : JValue) (dur : Nat)
    (rt : RtState) (R s : Nat) (data : RequestData)
    (h1 : alFind d rt.drift_to_request = some R)
    (h2 : alFind R rt.active_requests = some data)
    (h3 : alFind R rt.request_start_counters = some s) :
    alFind d (resume_record R d res dur rt).completed_drifts = some res
    ∧ handle_resume exec d res dur rt
        = resume_cleanup R (exec { resume_record R d res dur rt with drift_counter := s } R)
    ∧ ∀ rt2 : RtState, rt2.drift_counter = s →
        ∀ k, s + k < U32_MOD →
          (drift_run rt2 R k).2 = (List.range k).map (fun i => s + 1 + i) := by
  refine ⟨?_, ?_, ?_⟩
  · simp [resume_record, alFind_insert_self]
  · have hact : alFind R (resume_record R d res dur rt).active_requests = some data := h2
    have hsc : alFind R (resume_record R d res dur rt).request_start_counters = some s := h3
    simp only [handle_resume, h1, Option.getD_some, hact, hsc]
  · intro rt2 hc k hk
    rw [drift_run_ids, hc]
    refine List.map_congr_left ?_
    intro i hi
    rw [List.mem_range] at hi
    rw [Nat.mod_eq_of_lt (by omega)]
    omega

/-- Concrete request data used by the runtime witnesses. -/
def dataW : RequestData :=
  ⟨"hello", none, "GET", "/hello", [], [], []⟩

/-- Concrete worker state: request 1 pending and active, started at drift
counter 3, with drift 4 in flight. -/
def rtW : RtState :=
  { drift_counter := 4, request_counter := 1, pending_requests := [1],
    active_requests := [(1, dataW)], request_start_counters := [(1, 3)],
    drift_to_request := [(4, 1)], completed_drifts := [],
    request_timings := [], delivered := [] }

theorem handle_resume_C1_witness :
    alFind 4 (resume_record 1 4 JValue.null 2 rtW).completed_drifts = some JValue.null
    ∧ handle_resume (fun rt _ => rt) 4 JValue.null 2 rtW
        = resume_cleanup 1
            ((fun (rt : RtState) (_ : Nat) => rt)
              { resume_record 1 4 JValue.null 2 rtW with drift_counter := 3 } 1)
    ∧ ∀ rt2 : RtState, rt2.drift_counter = 3 →
        ∀ k, 3 + k < U32_MOD →
          (drift_run rt2 1 k).2 = (List.range k).map (fun i => 3 + 1 + i) :=
  handle_resume_C1 (fun rt _ => rt) 4 JValue.null 2 rtW 1 3 dataW rfl rfl rfl

/-- C10: a Resume whose drift id is unknown to drift_to_request resolves to
request id 0; provided id 0 is not an active request (request ids are
assigned from 1), no action is re-executed (the result does not depend on
the execution oracle) and pending_requests, active_requests and
request_start_counters are untouched, while the result is still memoized
under the drift id and its timing recorded under request id 0. -/
theorem handle_resume_C10
    (exec : RtState → Nat → RtState) (d : Nat) (res : JValue) (dur : Nat)
    (rt : RtState)
    (h1 : alFind d rt.drift_to_request = none)
    (h0 : alFind 0 rt.active_requests = none) :
    handle_resume exec d res dur rt = resume_record 0 d res dur rt
    ∧ (handle_resume exec d res dur rt).pending_requests = rt.pending_requests
    ∧ (handle_resume exec d res dur rt).active_requests = rt.active_requests
    ∧ (handle_resume exec d res dur rt).request_start_counters
        = rt.request_start_counters
    ∧ alFind d (handle_resume exec d res dur rt).completed_drifts = some res
    ∧ (handle_resume exec d res dur rt).request_timings
        = pushTiming 0 (timingLabel res, dur) rt.request_timings
    ∧ (handle_resume exec d res dur rt).delivered = rt.delivered := by
  have h0r : alFind 0 (resume_record 0 d res dur rt).active_requests = none := h0
  have hmain : handle_resume exec d res dur rt = resume_record 0 d res dur rt := by
    simp [handle_resume, h1, h0r, resume_cleanup]
  refine ⟨hmain, ?_, ?_, ?_, ?_, ?_, ?_⟩ <;> rw [hmain] <;>
    simp [resume_record, alFind_insert_self]

/-- Concrete worker state with an empty drift_to_request map. -/
def rtW2 : RtState :=
  { drift_counter := 9, request_counter := 2, pending_requests := [2],
    active_requests := [(2, dataW)], request_start_counters := [(2, 7)],
    drift_to_request := [], completed_drifts := [],
    request_timings := [], delivered := [] }

theorem handle_resume_C10_witness :
    handle_resume (fun rt _ => rt) 6 (JValue.num 1) 5 rtW2
        = resume_record 0 6 (JValue.num 1) 5 rtW2
    ∧ (handle_resume (fun rt _ => rt) 6 (JValue.num 1) 5 rtW2).pending_requests
        = rtW2.pending_requests
    ∧ (handle_resume (fun rt _ => rt) 6 (JValue.num 1) 5 rtW2).active_requests
        = rtW2.active_requests
    ∧ (handle_resume (fun rt _ => rt) 6 (JValue.num 1) 5 rtW2).request_start_counters
        = rtW2.request_start_counters
    ∧ alFind 6 (handle_resume (fun rt _ => rt) 6 (JValue.num 1) 5 rtW2).completed_drifts
        = some (JValue.num 1)
    ∧ (handle_resume (fun rt _ => rt) 6 (JValue.num 1) 5 rtW2).request_timings
        = pushTiming 0 (timingLabel (JValue.num 1), 5) rtW2.request_timings
    ∧ (handle_resume (fun rt _ => rt) 6 (JValue.num 1) 5 rtW2).delivered
        = rtW2.delivered :=
  handle_resume_C10 (fun rt _ => rt) 6 (JValue.num 1) 5 rtW2 rfl rfl

/-- C2 at the failing input: a fresh worker holds one pending active request
(id 1, started at drift counter 0) whose drift 1 is in flight. The Resume
memoizes the drift result and replays; during the replay the action
completes normally, so the finish binding delivers the final value and
removes the pending entry, and handle_resume then frees the active entry
and the start-counter snapshot. The completed_drifts entry of drift 1,
which belongs to request 1, is still in the memo afterwards: no code path
under src removes completed_drifts entries, contradicting the reclamation
the spec requires. -/
theorem handle_resume_C2_leak :
    (handle_resume (finish_request (JValue.str "done")) 1 (JValue.str "res") 3
        { drift_counter := 1, request_counter := 1, pending_requests := [1],
          active_requests := [(1, dataW)], request_start_counters := [(1, 0)],
          drift_to_request := [(1, 1)], completed_drifts := [],
          request_timings := [], delivered := [] }).delivered
      = [(1, JValue.str "done")]
    ∧ (handle_resume (finish_request (JValue.str "done")) 1 (JValue.str "res") 3
        { drift_counter := 1, request_counter := 1, pending_requests := [1],
          active_requests := [(1, dataW)], request_start_counters := [(1, 0)],
          drift_to_request := [(1, 1)], completed_drifts := [],
          request_timings := [], delivered := [] }).pending_requests = []
    ∧ alFind 1 (handle_resume (finish_request (JValue.str "done")) 1 (JValue.str "res") 3
        { drift_counter := 1, request_counter := 1, pending_requests := [1],
          active_requests := [(1, dataW)], request_start_counters := [(1, 0)],
          drift_to_request := [(1, 1)], completed_drifts := [],
          request_timings := [], delivered := [] }).active_requests = none
    ∧ alFind 1 (handle_resume (finish_request (JValue.str "done")) 1 (JValue.str "res") 3
        { drift_counter := 1, request_counter := 1, pending_requests := [1],
          active_requests := [(1, dataW)], request_start_counters := [(1, 0)],
          drift_to_request := [(1, 1)], completed_drifts := [],
          request_timings := [], delivered := [] }).request_start_counters = none
    ∧ alFind 1 (handle_resume (finish_request (JValue.str "done")) 1 (JValue.str "res") 3
        { drift_counter := 1, request_counter := 1, pending_requests := [1],
          active_requests := [(1, dataW)], request_start_counters := [(1, 0)],
          drift_to_request := [(1, 1)], completed_drifts := [],
          request_timings := [], delivered := [] }).completed_drifts
      = some (JValue.str "res") :=
  ⟨rfl, rfl, rfl, rfl, rfl⟩

/-- C7: inside execute_action_optimized, a caught exception whose message is
not the SUSPEND sentinel removes the pending entry of the request and, when
that entry was present, delivers the error-shaped result (which the HTTP
collaborator surfaces as a 500); the sentinel leaves the whole worker state
(pending_requests and active_requests included) unchanged and delivers
nothing. -/
theorem execute_action_C7 (rt : RtState) (request_id : Nat) (msg : String) :
    (strContains msg "SUSPEND" = false →
      (execute_action_optimized rt request_id true (.threw msg)).pending_requests
          = rt.pending_requests.erase request_id
      ∧ (rt.pending_requests.contains request_id = true →
          (execute_action_optimized rt request_id true (.threw msg)).delivered
            = rt.delivered ++ [(request_id, errorResult msg)])
      ∧ surfaceStatus (errorResult msg) = 500)
    ∧ (strContains msg "SUSPEND" = true →
      execute_action_optimized rt request_id true (.threw msg) = rt) := by
  constructor
  · intro hs
    refine ⟨?_, ?_, ?_⟩
    · by_cases hp : request_id ∈ rt.pending_requests
      · simp [execute_action_optimized, hs, hp]
      · have h2 : rt.pending_requests.erase request_id = rt.pending_requests :=
          List.erase_of_not_mem hp
        simp [execute_action_optimized, hs, hp, h2]
    · intro hp
      have hm : request_id ∈ rt.pending_requests := by simpa using hp
      simp [execute_action_optimized, hs, hm]
    · simp [surfaceStatus, errorResult, jGet]
  · intro hs
    simp [execute_action_optimized, hs]

theorem execute_action_C7_witness :
    strContains "boom" "SUSPEND" = false
    ∧ ((execute_action_optimized rtW 1 true (JsOutcome.threw "boom")).pending_requests
          = rtW.pending_requests.erase 1
      ∧ (rtW.pending_requests.contains 1 = true →
          (execute_action_optimized rtW 1 true (JsOutcome.threw "boom")).delivered
            = rtW.delivered ++ [(1, errorResult "boom")])
      ∧ surfaceStatus (errorResult "boom") = 500) :=
  ⟨by decide, (execute_action_C7 rtW 1 "boom").1 (by decide)⟩

/-!
Worker pool dispatcher, embedded from templates/ts/server/src/runtime.rs
RuntimeManager::execute. Tasks are abstracted as Nat ids; a queue is the
list of tasks it holds, with the bounded capacity of 100 from bounded(100).
-/

/-- Capacity of each worker command queue (bounded(100)). -/
def QUEUE_CAPACITY : Nat := 100

/-- Dispatcher state: the atomic round-robin counter and the worker queues. -/
structure Pool where
  round_robin_counter : Nat
  queues : List (List Nat)

/-- Dispatch step of RuntimeManager::execute: fetch-and-add the round-robin
counter, take it modulo the worker count, and send the task to that worker.
The send is crossbeam Sender.send, which blocks until the bounded queue has
room; the destination never changes, so the queue model appends there. -/
def execute_dispatch (p : Pool) (task : Nat) : Pool :=
  let idx := p.round_robin_counter % p.queues.length
  { round_robin_counter := p.round_robin_counter + 1,
    queues := p.queues.set idx (p.queues.getD idx [] ++ [task]) }

/-- Dispatch step as described by the claim (named after the spec, for
comparison with execute_dispatch): try_send to the round-robin worker, on
queue full advance to (start+k) mod N until some worker has room, and only
when all N queues are full fall back to a blocking send to the original
worker. -/
def claimed_dispatch (p : Pool) (task : Nat) : Pool :=
  let n := p.queues.length
  let start := p.round_robin_counter % n
  let candidates := (List.range n).map (fun k => (start + k) % n)
  match candidates.find? (fun i => (p.queues.getD i []).length < QUEUE_CAPACITY) with
  | some i =>
      { round_robin_counter := p.round_robin_counter + 1,
        queues := p.queues.set i (p.queues.getD i [] ++ [task]) }
  | none =>
      { round_robin_counter := p.round_robin_counter + 1,
        queues := p.queues.set start (p.queues.getD start [] ++ [task]) }

/-- C8 counterexample: with two workers, worker 0 having a full queue and
worker 1 an empty one, the claimed work-stealing dispatch would hand the
task to worker 1, but RuntimeManager::execute performs a blocking send to
worker 0: there is no try_send fallback in the code. -/
theorem execute_dispatch_C8_counterexample :
    (execute_dispatch ⟨0, [List.replicate QUEUE_CAPACITY 0, []]⟩ 7).queues
      ≠ (claimed_dispatch ⟨0, [List.replicate QUEUE_CAPACITY 0, []]⟩ 7).queues := by
  decide

/-- C8 as amended: the dispatcher picks the worker by an atomic round-robin
fetch-and-add modulo the worker count and performs one (blocking) send to
that worker, leaving every other queue untouched; consecutive dispatches
cover all N workers before repeating (the N destinations of one round are
pairwise distinct). -/
theorem execute_dispatch_C8_amended (p : Pool) (task : Nat)
    (h : 0 < p.queues.length) :
    (execute_dispatch p task).round_robin_counter = p.round_robin_counter + 1
    ∧ (execute_dispatch p task).queues
        = p.queues.set (p.round_robin_counter % p.queues.length)
            (p.queues.getD (p.round_robin_counter % p.queues.length) [] ++ [task])
    ∧ ((List.range p.queues.length).map
          (fun k => (p.round_robin_counter + k) % p.queues.length)).Nodup := by
  refine ⟨rfl, rfl, ?_⟩
  refine List.Nodup.map_on ?_ (List.nodup_range p.queues.length)
  intro i hi j hj hf
  rw [List.mem_range] at hi hj
  have hmod : i % p.queues.length = j % p.queues.length :=
    Nat.ModEq.add_left_cancel' p.round_robin_counter hf
  rw [Nat.mod_eq_of_lt hi, Nat.mod_eq_of_lt hj] at hmod
  exact hmod

theorem execute_dispatch_C8_amended_witness :
    0 < ([([] : List Nat), []] : List (List Nat)).length
    ∧ ((execute_dispatch ⟨3, [[], []]⟩ 5).round_robin_counter = 3 + 1
      ∧ (execute_dispatch ⟨3, [[], []]⟩ 5).queues
          = ([([] : List Nat), []] : List (List Nat)).set (3 % 2)
              (([([] : List Nat), []] : List (List Nat)).getD (3 % 2) [] ++ [5])
      ∧ (((List.range 2).map (fun k => (3 + k) % 2)).Nodup)) := by
  refine ⟨by decide, ?_⟩
  have h := execute_dispatch_C8_amended ⟨3, [[], []]⟩ 5 (by decide)
  simpa using h

/-!
Sandboxed file read, embedded from native_read in
templates/js/server/src/extensions.rs. Filesystem paths are modelled as
component lists with an absolute flag (Rust Path semantics: is_absolute,
component-wise join and starts_with); the filesystem itself (canonicalize,
which resolves dot-dot segments and symlinks, and read_to_string) is an
abstract parameter, since its behaviour lives in the OS. -/

/-- A filesystem path: absolute flag plus components. -/
structure FsPath where
  absolute : Bool
  components : List String
deriving DecidableEq

/-- Abstract filesystem: canonicalize fails on missing files, read fails on
unreadable ones. -/
structure FsModel where
  canonicalize : FsPath → Option FsPath
  readToString : FsPath → Option String

/-- PathBuf.join: an absolute right operand replaces the base. -/
def path_join (base p : FsPath) : FsPath :=
  if p.absolute then p else ⟨base.absolute, base.components ++ p.components⟩

/-- Path.starts_with: component-wise prefix (never a bare string prefix). -/
def path_starts_with (p base : FsPath) : Bool :=
  (p.absolute == base.absolute) && base.components.isPrefixOf p.components

/-- Result of t.read: a thrown JS exception or the file contents. -/
inductive ReadResult where
  | threw (msg : String)
  | ok (content : String)
deriving DecidableEq

/-- native_read from templates/js/server/src/extensions.rs. The argument is
none when the JS value was not a string. The project root (the string in
the global __titan_root) is canonicalized first, falling back to itself;
the requested path must be relative, is joined under the canonical root and
canonicalized; the result must start with the canonical root or a JS
exception is thrown instead of file data. -/
def native_read (fs : FsModel) (root : FsPath) (arg : Option FsPath) : ReadResult :=
  match arg with
  | none => .threw "t.read(path): path is required"
  | some p =>
      if p.absolute then .threw "t.read expects a relative path"
      else
        let root_path := (fs.canonicalize root).getD root
        let joined := path_join root_path p
        match fs.canonicalize joined with
        | none => .threw "t.read: file not found"
        | some target =>
            if path_starts_with target root_path then
              match fs.readToString target with
              | some content => .ok content
              | none => .threw "t.read failed"
            else .threw "t.read: path escapes allowed root"

/-- C6: t.read never returns file data from outside the canonicalized
project root. Every successful read comes from a canonical target that
passed the starts_with check against the canonical root and originated from
a relative argument; absolute paths are rejected up front; and a canonical
target outside the canonical root throws instead of returning data. -/
theorem native_read_C6 (fs : FsModel) (root : FsPath) (arg : Option FsPath) :
    (∀ content, native_read fs root arg = .ok content →
      ∃ p target, arg = some p ∧ p.absolute = false
        ∧ fs.canonicalize (path_join ((fs.canonicalize root).getD root) p) = some target
        ∧ path_starts_with target ((fs.canonicalize root).getD root) = true
        ∧ fs.readToString target = some content)
    ∧ (∀ p, arg = some p → p.absolute = true →
        native_read fs root arg = .threw "t.read expects a relative path")
    ∧ (∀ p target, arg = some p → p.absolute = false →
        fs.canonicalize (path_join ((fs.canonicalize root).getD root) p) = some target →
        path_starts_with target ((fs.canonicalize root).getD root) = false →
        native_read fs root arg = .threw "t.read: path escapes allowed root") := by
  refine ⟨?_, ?_, ?_⟩
  · intro content hok
    cases arg with
    | none => simp [native_read] at hok
    | some p =>
        cases habs : p.absolute with
        | true => simp [native_read, habs] at hok
        | false =>
            cases hc : fs.canonicalize (path_join ((fs.canonicalize root).getD root) p) with
            | none => simp [native_read, habs, hc] at hok
            | some target =>
                cases hsw : path_starts_with target ((fs.canonicalize root).getD root) with
                | false => simp [native_read, habs, hc, hsw] at hok
                | true =>
                    cases hr : fs.readToString target with
                    | none => simp [native_read, habs, hc, hsw, hr] at hok
                    | some c =>
                        refine ⟨p, target, rfl, habs, hc, hsw, ?_⟩
                        rw [hr]
                        simp [native_read, habs, hc, hsw, hr] at hok
                        rw [hok]
  · intro p harg habs
    subst harg
    simp [native_read, habs]
  · intro p target harg habs hc hsw
    subst harg
    simp [native_read, habs, hc, hsw]

/-- Concrete filesystem for the C6 witness: canonicalization is the
identity and every file reads as data. -/
def fsW : FsModel := ⟨fun p => some p, fun _ => some "data"⟩

/-- Concrete project root for the C6 witness. -/
def rootW : FsPath := ⟨true, ["srv", "app"]⟩

theorem native_read_C6_witness :
    (some (⟨true, ["etc", "passwd"]⟩ : FsPath) = some (⟨true, ["etc", "passwd"]⟩ : FsPath))
    ∧ (⟨true, ["etc", "passwd"]⟩ : FsPath).absolute = true
    ∧ native_read fsW rootW (some ⟨true, ["etc", "passwd"]⟩)
        = .threw "t.read expects a relative path" :=
  ⟨rfl, rfl,
    (native_read_C6 fsW rootW (some ⟨true, ["etc", "passwd"]⟩)).2.1
      ⟨true, ["etc", "passwd"]⟩ rfl rfl⟩

/-!
Route matching, embedded from match_dynamic_route in
templates/rust-ts/server/src/action_management.rs and the route resolution
of dynamic_handler_inner in templates/ts/server/src/main.rs. Strings are
manipulated through their character lists (Rust str iteration). -/

/-- str::trim_matches with a char pattern: strip every leading and trailing
occurrence. -/
def trim_matches (c : Char) (s : List Char) : List Char :=
  ((s.dropWhile (· == c)).reverse.dropWhile (· == c)).reverse

/-- str::split with a char pattern: the empty string yields one empty
segment, adjacent separators yield empty segments. -/
def split_on_char (c : Char) : List Char → List (List Char)
  | [] => [[]]
  | x :: rest =>
      let r := split_on_char c rest
      if x == c then [] :: r
      else
        match r with
        | [] => [[x]]
        | h :: t => (x :: h) :: t

/-- Segments of a path or pattern: trim slashes, then split on slash. -/
def path_segments (s : List Char) : List (List Char) :=
  split_on_char '/' (trim_matches '/' s)

/-- Numeric value of a digit list (base 10). -/
def digitsToNat : List Char → Nat :=
  List.foldl (fun acc c => acc * 10 + (c.toNat - 48)) 0

/-- str::parse to i64: optional sign, at least one digit, all digits, and
the value within the i64 range. -/
def parses_as_i64 (s : List Char) : Bool :=
  match s with
  | [] => false
  | c :: rest =>
      let signed := if c == '-' then (true, rest)
                    else if c == '+' then (false, rest)
                    else (false, c :: rest)
      !signed.2.isEmpty && signed.2.all (·.isDigit)
        && decide (digitsToNat signed.2 ≤ if signed.1 then 2 ^ 63 else 2 ^ 63 - 1)

/-- str::split_once with a char pattern: split at the first occurrence. -/
def split_once_char (c : Char) : List Char → Option (List Char × List Char)
  | [] => none
  | x :: rest =>
      if x == c then some ([], rest)
      else (split_once_char c rest).map (fun p => (x :: p.1, p.2))

/-- str::trim_end_matches with a char pattern. -/
def trim_end_matches (c : Char) (s : List Char) : List Char :=
  (s.reverse.dropWhile (· == c)).reverse

/-- One iteration of the segment loop of match_dynamic_route: none is a
mismatch, some none a literal match, some (some (name, value)) a
placeholder binding. A pattern segment starting with a colon is a
placeholder; its optional angle-bracket suffix names the type: number
requires an i64 parse of the path segment, string always binds, anything
else never matches. Other segments must equal the path segment. -/
def match_segment (pat val : List Char) : Option (Option (List Char × List Char)) :=
  match pat with
  | ':' :: inner =>
      let nt := match split_once_char '<' inner with
        | some (n, t) => (n, trim_end_matches '>' t)
        | none => (inner, "string".toList)
      let valid := if nt.2 == "number".toList then parses_as_i64 val
                   else if nt.2 == "string".toList then true
                   else false
      if valid then some (some (nt.1, val)) else none
  | _ => if pat == val then some none else none

/-- Parameter map type collected by the matcher (HashMap String to String,
kept as an insertion-ordered overwrite list). -/
abbrev Params := List (String × String)

/-- Walk the zipped pattern and path segments, accumulating placeholder
bindings and failing on the first mismatch. -/
def segs_match : List (List Char) → List (List Char) → Params → Option Params
  | [], [], acc => some acc
  | p :: ps, v :: vs, acc =>
      match match_segment p v with
      | none => none
      | some none => segs_match ps vs acc
      | some (some kv) => segs_match ps vs (alInsert (String.mk kv.1) (String.mk kv.2) acc)
  | _, _, _ => none

/-- Dynamic route entry from the route manifest. -/
structure DynRoute where
  method : String
  pattern : String
  action : String
deriving DecidableEq

/-- Attempt of one route: methods must be equal, the pattern must split
into as many segments as the path, and every segment pair must match. -/
def route_attempt (r : DynRoute) (method : String) (path_segs : List (List Char)) :
    Option (String × Params) :=
  if r.method == method then
    let pat_segs := path_segments r.pattern.toList
    if pat_segs.length == path_segs.length then
      (segs_match pat_segs path_segs []).map (fun ps => (r.action, ps))
    else none
  else none

/-- match_dynamic_route from
templates/rust-ts/server/src/action_management.rs: the first route in list
order whose attempt succeeds wins. -/
def match_dynamic_route (method path : String) (routes : List DynRoute) :
    Option (String × Params) :=
  routes.findSome? (fun r => route_attempt r method (path_segments path.toList))

/-- Boolean segment-match test (the claim states matching as a condition;
a segment matches when the loop does not fail on it). -/
def seg_matches_bool (pat val : List Char) : Bool :=
  (match_segment pat val).isSome

/-- Boolean route-match test: the condition under which a route pattern
matches a candidate request. -/
def route_matches (r : DynRoute) (method path : String) : Bool :=
  r.method == method
    && (path_segments r.pattern.toList).length == (path_segments path.toList).length
    && ((path_segments r.pattern.toList).zip (path_segments path.toList)).all
        (fun pv => seg_matches_bool pv.1 pv.2)

theorem segs_match_isSome (ps vs : List (List Char)) (acc : Params) :
    (segs_match ps vs acc).isSome
      = ((ps.length == vs.length)
          && (ps.zip vs).all (fun pv => seg_matches_bool pv.1 pv.2)) := by
  induction ps generalizing vs acc with
  | nil => cases vs <;> simp [segs_match]
  | cons p ps ih =>
      cases vs with
      | nil => simp [segs_match]
      | cons v vs =>
          cases hm : match_segment p v with
          | none => simp [segs_match, hm, seg_matches_bool]
          | some b =>
              cases b with
              | none => simp [segs_match, hm, seg_matches_bool, ih]
              | some kv => simp [segs_match, hm, seg_matches_bool, ih]

theorem findSome_eq_find_bind (f : α → Option β) (pred : α → Bool)
    (hp : ∀ a, pred a = (f a).isSome) (l : List α) :
    l.findSome? f = (l.find? pred).bind f := by
  induction l with
  | nil => simp
  | cons a l ih =>
      cases hf : f a with
      | none =>
          have hpa : pred a = false := by rw [hp, hf]; rfl
          simp [List.findSome?, List.find?, hf, hpa, ih]
      | some b =>
          have hpa : pred a = true := by rw [hp, hf]; rfl
          simp [List.findSome?, List.find?, hf, hpa]

theorem route_attempt_isSome (r : DynRoute) (method path : String) :
    (route_attempt r method (path_segments path.toList)).isSome
      = route_matches r method path := by
  by_cases hm : r.method == method
  · by_cases hl : (path_segments r.pattern.data).length
        = (path_segments path.data).length
    · simp [route_attempt, route_matches, hm, hl, segs_match_isSome]
    · simp [route_attempt, route_matches, hm, hl]
  · simp [route_attempt, route_matches, hm]

theorem split_once_char_of_not_mem (c : Char) (s : List Char) (h : c ∉ s) :
    split_once_char c s = none := by
  induction s with
  | nil => rfl
  | cons x rest ih =>
      have hx : ¬(x == c) = true := by
        simp only [beq_iff_eq]
        intro e
        exact h (by simp [e])
      have hr : c ∉ rest := fun hm => h (List.mem_cons_of_mem x hm)
      simp [split_once_char, hx, ih hr]

theorem split_once_char_append (c : Char) (n t : List Char) (h : c ∉ n) :
    split_once_char c (n ++ c :: t) = some (n, t) := by
  induction n with
  | nil => simp [split_once_char]
  | cons x n ih =>
      have hx : ¬(x == c) = true := by
        simp only [beq_iff_eq]
        intro e
        exact h (by simp [e])
      have hr : c ∉ n := fun hm => h (List.mem_cons_of_mem x hm)
      simp [split_once_char, hx, ih hr]

/-- Exact route entry from the route manifest (type plus value). -/
structure RouteVal where
  rtype : String
  value : JValue

/-- What the HTTP handler decides for a request. -/
inductive RouteOutcome where
  | json (v : JValue)
  | reply (s : String)
  | action (name : String) (params : Params)
  | notFound

/-- Exact-table consultation of dynamic_handler_inner: the strict
METHOD:PATH key first, then the bare path. -/
def exact_lookup (routes : List (String × RouteVal)) (method path : String) :
    Option RouteVal :=
  match alFind (method ++ ":" ++ path) routes with
  | some rv => some rv
  | none => alFind path routes

/-- Dynamic fallback of dynamic_handler_inner. -/
def resolve_dynamic (dyn : List DynRoute) (method path : String) : RouteOutcome :=
  match match_dynamic_route method path dyn with
  | some ap => .action ap.1 ap.2
  | none => .notFound

/-- Route resolution of dynamic_handler_inner
(templates/ts/server/src/main.rs): the exact table is consulted first; an
action entry names the action, a json entry replies with its value, any
other entry with a string value replies with that string; only otherwise is
the dynamic route list consulted. -/
def resolve_route (routes : List (String × RouteVal)) (dyn : List DynRoute)
    (method path : String) : RouteOutcome :=
  match exact_lookup routes method path with
  | some rv =>
      if rv.rtype == "action" then .action ((jAsStr rv.value).getD "unknown") []
      else if rv.rtype == "json" then .json rv.value
      else
        match jAsStr rv.value with
        | some s => .reply s
        | none => resolve_dynamic dyn method path
  | none => resolve_dynamic dyn method path

/-- C9: dynamic route matching returns the attempt of the first route in
list order satisfying route_matches (methods equal, equal segment counts,
all segment pairs matching); a non-placeholder segment matches exactly the
literally equal path segment; a plain colon placeholder always binds; a
number-typed placeholder matches exactly the path segments that parse as
i64; and when the exact table resolves the request (action, json, or a
string reply), the outcome does not depend on the dynamic route list at
all. -/
theorem match_dynamic_route_C9 (method path : String) (routes : List DynRoute) :
    match_dynamic_route method path routes
      = (routes.find? (fun r => route_matches r method path)).bind
          (fun r => route_attempt r method (path_segments path.toList))
    ∧ (∀ pat val : List Char, pat.head? ≠ some ':' →
        seg_matches_bool pat val = (pat == val))
    ∧ (∀ name val : List Char, '<' ∉ name →
        seg_matches_bool (':' :: name) val = true)
    ∧ (∀ name val : List Char, '<' ∉ name →
        seg_matches_bool (':' :: (name ++ "<number>".toList)) val
          = parses_as_i64 val)
    ∧ (∀ (exact : List (String × RouteVal)) (dyn dyn2 : List DynRoute)
          (rv : RouteVal),
        exact_lookup exact method path = some rv →
        (rv.rtype == "action" || rv.rtype == "json"
          || (jAsStr rv.value).isSome) = true →
        resolve_route exact dyn method path = resolve_route exact dyn2 method path) := by
  refine ⟨?_, ?_, ?_, ?_, ?_⟩
  · exact findSome_eq_find_bind _ _
      (fun r => (route_attempt_isSome r method path).symm) routes
  · intro pat val h
    cases pat with
    | nil => cases val <;> simp [seg_matches_bool, match_segment]
    | cons c rest =>
        have hc : c ≠ ':' := by
          intro e
          exact h (by simp [e])
        rw [seg_matches_bool, match_segment.eq_def]
        cases val with
        | nil =>
            simp only []
            split
            · rename_i inner heq
              exact absurd (List.cons.inj heq).1 hc
            · by_cases hv : (c :: rest) == ([] : List Char) <;> simp [hv]
        | cons v vs =>
            split
            · rename_i inner heq
              exact absurd (List.cons.inj heq).1 hc
            · by_cases hv : (c :: rest) == v :: vs <;> simp [hv]
  · intro name val h
    simp [seg_matches_bool, match_segment, split_once_char_of_not_mem '<' name h]
  · intro name val h
    have hsplit : split_once_char '<' (name ++ "<number>".toList)
        = some (name, "number>".toList) := by
      have : ("<number>".toList : List Char) = '<' :: "number>".toList := rfl
      rw [this]
      exact split_once_char_append '<' name _ h
    have htrim : trim_end_matches '>' "number>".toList = "number".toList := by decide
    simp only [seg_matches_bool, match_segment, hsplit, htrim]
    have h1 : (("number".toList : List Char) == "number".toList) = true := by decide
    simp only [h1, if_true]
    by_cases hp : parses_as_i64 val <;> simp [hp]
  · intro exact dyn dyn2 rv hrv hres
    by_cases ha : rv.rtype == "action"
    · simp [resolve_route, hrv, ha]
    · by_cases hj : rv.rtype == "json"
      · simp [resolve_route, hrv, ha, hj]
      · cases hs : jAsStr rv.value with
        | none => simp [ha, hj, hs] at hres
        | some s => simp [resolve_route, hrv, ha, hj, hs]

/-- Concrete dynamic route table for the C9 witness. -/
def routesW : List DynRoute :=
  [⟨"GET", "/users/:id<number>", "getUser"⟩, ⟨"GET", "/users/:name", "getByName"⟩]

theorem match_dynamic_route_C9_witness :
    match_dynamic_route "GET" "/users/42" routesW
      = (routesW.find? (fun r => route_matches r "GET" "/users/42")).bind
          (fun r => route_attempt r "GET" (path_segments "/users/42".toList))
    ∧ match_dynamic_route "GET" "/users/42" routesW
        = some ("getUser", [("id", "42")])
    ∧ match_dynamic_route "GET" "/users/bob" routesW
        = some ("getByName", [("name", "bob")]) :=
  ⟨(match_dynamic_route_C9 "GET" "/users/42" routesW).1, by decide, by decide⟩

/-!
Static action analyzer, embedded from
templates/js/server/src/fast_path.rs. The oxc AST and semantic layer are
modelled by a deep syntax of the expression shapes the analyzer
distinguishes, a symbol table (symbol id to mutation flag and declaration),
and the flat node list the two AST walks iterate over. JavaScript numbers
are carried as integers (see JValue); NaN and Infinity cannot arise from
numeric literals, addition and negation, so number_to_json is total on this
fragment. Object maps keep source insertion order with overwrite.
-/

/-- Binary operators: the evaluator only handles Addition. -/
inductive BinOp where
  | add
  | otherBin
deriving DecidableEq

/-- Unary operators: the evaluator only handles UnaryNegation; the mutation
scan looks for Delete. -/
inductive UnOp where
  | neg
  | del
  | otherUn
deriving DecidableEq

/-- Property keys of object literals. -/
inductive PropKey where
  | staticIdent (name : String)
  | strKey (s : String)
  | numKey (n : Int)
  | computed
deriving DecidableEq

mutual
/-- Expression shapes distinguished by eval_static and the AST walks.
ident carries the symbol id its reference resolved to (none for an
unresolved or global reference); otherExpr stands for every construct the
evaluator rejects outright (calls, conditionals, await, new, and so on). -/
inductive Expr where
  | strLit (s : String)
  | numLit (n : Int)
  | boolLit (b : Bool)
  | nullLit
  | objLit (props : List ObjProp)
  | arrLit (elems : List ArrElem)
  | ident (name : String) (symbol : Option Nat)
  | template (quasis : List (Option String)) (exprs : List Expr)
  | binary (op : BinOp) (l r : Expr)
  | unary (op : UnOp) (arg : Expr)
  | paren (e : Expr)
  | staticMember (obj : Expr) (prop : String)
  | computedMember (obj : Expr) (index : Expr)
  | otherExpr

/-- Object literal members: a keyed property or a spread. -/
inductive ObjProp where
  | prop (key : PropKey) (value : Expr)
  | spread

/-- Array literal members: an expression, a spread, or a hole. -/
inductive ArrElem where
  | elem (e : Expr)
  | spread
  | elision
end

/-- Call arguments (oxc Argument): an expression or a spread element. -/
inductive Arg where
  | expr (e : Expr)
  | spread

/-- Assignment targets inspected by the mutation scan. -/
inductive AssignTarget where
  | staticMemberTarget (obj : Expr)
  | computedMemberTarget (obj : Expr)
  | otherTarget

/-- AST nodes as iterated by semantic.nodes(): the two walks only inspect
call expressions, assignment expressions and unary expressions; return
statements and everything else pass through untouched. -/
inductive ANode where
  | callNode (callee : Expr) (args : List Arg)
  | assignNode (target : AssignTarget)
  | unaryNode (op : UnOp) (arg : Expr)
  | returnNode (arg : Option Expr)
  | otherNode

/-- Declaration site of a symbol: a VariableDeclarator with its optional
initializer, or any other declaration kind (function parameter, class
member, ...). -/
inductive DeclKind where
  | varDecl (init : Option Expr)
  | otherDecl

/-- Symbol table entry: symbol_is_mutated (any write after declaration)
plus the declaration node. -/
structure SymbolInfo where
  mutated : Bool
  decl : DeclKind

/-- Semantic layer: the symbol table indexed by symbol id, and the flat
node list of the program. -/
structure Semantic where
  symbols : List SymbolInfo
  nodes : List ANode

/-- Result of parsing an action source. -/
inductive ParseResult where
  | panicked
  | parsed (sem : Semantic)

/-- Maximum recursion depth of the static evaluator. -/
def MAX_EVAL_DEPTH : Nat := 16

/-- Known mutating methods for arrays and collection types. -/
def MUTATING_METHODS : List String :=
  ["push", "pop", "shift", "unshift", "splice",
   "sort", "reverse", "fill", "copyWithin",
   "set", "delete", "clear"]

/-- Whether an expression is an identifier reference resolving to the given
symbol. -/
def is_identifier_for_symbol (e : Expr) (sid : Nat) : Bool :=
  match e with
  | .ident _ (some s) => s == sid
  | _ => false

/-- Whether an assignment target is a member expression on our symbol. -/
def is_assignment_target_our_symbol (t : AssignTarget) (sid : Nat) : Bool :=
  match t with
  | .staticMemberTarget obj => is_identifier_for_symbol obj sid
  | .computedMemberTarget obj => is_identifier_for_symbol obj sid
  | .otherTarget => false

/-- Whether one AST node mutates the binding of the symbol: a mutating
method call on it, an assignment to a static or computed member of it, or a
delete of a static or computed member of it. -/
def node_mutates (sid : Nat) : ANode → Bool
  | .callNode callee _ =>
      match callee with
      | .staticMember obj m =>
          MUTATING_METHODS.contains m && is_identifier_for_symbol obj sid
      | _ => false
  | .assignNode target => is_assignment_target_our_symbol target sid
  | .unaryNode op arg =>
      match op, arg with
      | .del, .staticMember obj _ => is_identifier_for_symbol obj sid
      | .del, .computedMember obj _ => is_identifier_for_symbol obj sid
      | _, _ => false
  | .returnNode _ => false
  | .otherNode => false

/-- is_object_mutated_in_ast: scan every AST node for a mutation of the
binding. -/
def is_object_mutated_in_ast (sid : Nat) (sem : Semantic) : Bool :=
  sem.nodes.any (node_mutates sid)

/-- Whether an initializer is an array or object literal (those can be
mutated through the binding without reassignment). -/
def is_arr_or_obj_literal : Expr → Bool
  | .arrLit _ => true
  | .objLit _ => true
  | _ => false

/-- number_to_json: on the integer fragment every number is finite with no
fractional part, so it always embeds. -/
def number_to_json (v : Int) : Option JValue :=
  some (.num v)

/-- property_key_to_string: static identifier, string literal or numeric
literal keys; computed keys are dynamic. -/
def property_key_to_string : PropKey → Option String
  | .staticIdent name => some name
  | .strKey s => some s
  | .numKey n => some (toString n)
  | .computed => none

/-- Conversion of an interpolated value inside a template literal; objects
and arrays cannot be interpolated statically. -/
def template_piece : JValue → Option String
  | .str s => some s
  | .num n => some (toString n)
  | .bool b => some (if b then "true" else "false")
  | .null => some "null"
  | _ => none

/-- Insertion of object properties in source order with overwrite
(map.insert during the object walk). -/
def map_from_pairs (pairs : List (String × JValue)) : List (String × JValue) :=
  pairs.foldl (fun m p => alInsert p.1 p.2 m) []

mutual
/-- eval_static from fast_path.rs: recursively evaluate an expression to a
JSON value, failing (none) whenever the expression is dynamic or the depth
cap is exceeded. -/
def eval_static (sem : Semantic) (depth : Nat) (e : Expr) : Option JValue :=
  if h : depth > MAX_EVAL_DEPTH then none
  else
    match e with
    | .strLit s => some (.str s)
    | .numLit n => number_to_json n
    | .boolLit b => some (.bool b)
    | .nullLit => some .null
    | .objLit props =>
        (eval_props sem (depth + 1) props).map (fun ps => .obj (map_from_pairs ps))
    | .arrLit elems => (eval_elems sem (depth + 1) elems).map .arr
    | .ident _ symbol => resolve_identifier sem depth symbol
    | .template quasis exprs =>
        if exprs.isEmpty then some (.str (String.join (quasis.filterMap id)))
        else (eval_template sem (depth + 1) quasis exprs).map .str
    | .binary op l r =>
        match op with
        | .add =>
            match eval_static sem (depth + 1) l with
            | none => none
            | some lv =>
                match eval_static sem (depth + 1) r with
                | none => none
                | some rv =>
                    match lv, rv with
                    | .str a, .str b => some (.str (a ++ b))
                    | .str a, .num b => some (.str (a ++ toString b))
                    | .num a, .str b => some (.str (toString a ++ b))
                    | .num a, .num b => number_to_json (a + b)
                    | _, _ => none
        | .otherBin => none
    | .unary op a =>
        match op with
        | .neg =>
            match eval_static sem (depth + 1) a with
            | none => none
            | some v =>
                match v with
                | .num n => number_to_json (-n)
                | _ => none
        | _ => none
    | .paren inner => eval_static sem depth inner
    | .staticMember _ _ => none
    | .computedMember _ _ => none
    | .otherExpr => none
termination_by (MAX_EVAL_DEPTH + 2 - depth, sizeOf e)

/-- resolve_identifier from fast_path.rs: resolve the reference through the
symbol table; fail for unresolved symbols, reassigned symbols and mutated
array or object bindings; otherwise evaluate the initializer (a missing
initializer is undefined, null in JSON); non-variable declarations are
dynamic. -/
def resolve_identifier (sem : Semantic) (depth : Nat) (symbol : Option Nat) :
    Option JValue :=
  if h : depth > MAX_EVAL_DEPTH then none
  else
    match symbol with
    | none => none
    | some sid =>
        match sem.symbols.get? sid with
        | none => none
        | some info =>
            if info.mutated then none
            else
              match info.decl with
              | .varDecl (some init) =>
                  if is_arr_or_obj_literal init then
                    if is_object_mutated_in_ast sid sem then none
                    else eval_static sem (depth + 1) init
                  else eval_static sem (depth + 1) init
              | .varDecl none => some .null
              | .otherDecl => none
termination_by (MAX_EVAL_DEPTH + 2 - depth, 0)

/-- Property walk of an object literal: spread aborts, each value is
evaluated recursively, pairs are returned in source order. -/
def eval_props (sem : Semantic) (depth : Nat) :
    List ObjProp → Option (List (String × JValue))
  | [] => some []
  | .spread :: _ => none
  | .prop k v :: rest =>
      match property_key_to_string k with
      | none => none
      | some key =>
          match eval_static sem depth v with
          | none => none
          | some val =>
              match eval_props sem depth rest with
              | none => none
              | some restv => some ((key, val) :: restv)
termination_by l => (MAX_EVAL_DEPTH + 2 - depth, sizeOf l)

/-- Element walk of an array literal: spread aborts, holes become null. -/
def eval_elems (sem : Semantic) (depth : Nat) : List ArrElem → Option (List JValue)
  | [] => some []
  | .spread :: _ => none
  | .elision :: rest => (eval_elems sem depth rest).map (fun l => .null :: l)
  | .elem e :: rest =>
      match eval_static sem depth e with
      | none => none
      | some v =>
          match eval_elems sem depth rest with
          | none => none
          | some restv => some (v :: restv)
termination_by l => (MAX_EVAL_DEPTH + 2 - depth, sizeOf l)

/-- Interleaved walk of a template literal with interpolations: each quasi
must be cooked, each interpolation must evaluate to a primitive. -/
def eval_template (sem : Semantic) (depth : Nat) :
    List (Option String) → List Expr → Option String
  | [], _ => some ""
  | none :: _, _ => none
  | some q :: qs, [] =>
      (eval_template sem depth qs []).map (fun rest => q ++ rest)
  | some q :: qs, e :: es =>
      match eval_static sem depth e with
      | none => none
      | some v =>
          match template_piece v with
          | none => none
          | some s =>
              match eval_template sem depth qs es with
              | none => none
              | some rest => some (q ++ s ++ rest)
termination_by qs es => (MAX_EVAL_DEPTH + 2 - depth, sizeOf qs + sizeOf es)
end

/-- JSON string escaping of serde_json (quote, backslash and the common
control characters; other characters pass through). -/
def json_escape_char (c : Char) : String :=
  if c = '"' then "\\\""
  else if c = '\\' then "\\\\"
  else if c = '\n' then "\\n"
  else if c = '\r' then "\\r"
  else if c = '\t' then "\\t"
  else String.singleton c

/-- Quoted JSON string literal. -/
def json_escape (s : String) : String :=
  "\"" ++ String.join (s.toList.map json_escape_char) ++ "\""

mutual
/-- serde_json::to_vec: serialization of a JSON value (bytes as a string). -/
def json_serialize : JValue → String
  | .null => "null"
  | .bool b => if b then "true" else "false"
  | .num n => toString n
  | .str s => json_escape s
  | .arr xs => "[" ++ json_serialize_items xs ++ "]"
  | .obj fs => "\x7b" ++ json_serialize_fields fs ++ "\x7d"

/-- Comma-separated serialization of array items. -/
def json_serialize_items : List JValue → String
  | [] => ""
  | [x] => json_serialize x
  | x :: xs => json_serialize x ++ "," ++ json_serialize_items xs

/-- Comma-separated serialization of object fields. -/
def json_serialize_fields : List (String × JValue) → String
  | [] => ""
  | [(k, v)] => json_escape k ++ ":" ++ json_serialize v
  | (k, v) :: fs => json_escape k ++ ":" ++ json_serialize v ++ "," ++ json_serialize_fields fs
end

/-- A pre-computed HTTP response for a static action; equality is
structural on all four components (the PartialEq impl in fast_path.rs). -/
structure StaticResponse where
  body : String
  content_type : String
  status : Nat
  extra_headers : List (String × String)
deriving DecidableEq

/-- Options extracted from the second argument of a t.response call. -/
structure ResponseOptions where
  status : Nat
  headers : List (String × String)
deriving DecidableEq

/-- extract_response_options from fast_path.rs: status defaults to 200 and
is taken only from an integer in 100..=599; headers keep the string-valued
fields of the headers object. -/
def extract_response_options (v : JValue) : ResponseOptions :=
  match v with
  | .obj fields =>
      let status_val : Option JValue :=
        (fields.find? (fun p => p.1 == "status")).map (·.2)
      let headers_val : Option JValue :=
        (fields.find? (fun p => p.1 == "headers")).map (·.2)
      let status : Nat :=
        match status_val with
        | some (.num n) => if 100 ≤ n ∧ n ≤ 599 then n.toNat else 200
        | _ => 200
      let headers : List (String × String) :=
        match headers_val with
        | some (.obj hs) => hs.filterMap (fun p => (jAsStr p.2).map (fun s => (p.1, s)))
        | _ => []
      ⟨status, headers⟩
  | _ => ⟨200, []⟩

/-- detect_response_method from fast_path.rs: the callee must have the
shape t.response.m with m one of json, text, html. -/
def detect_response_method (callee : Expr) : Option String :=
  match callee with
  | .staticMember inner m =>
      if m == "json" || m == "text" || m == "html" then
        match inner with
        | .staticMember tobj "response" =>
            match tobj with
            | .ident "t" _ => some m
            | _ => none
        | _ => none
      else none
  | _ => none

/-- Outcome of analyze_response_call on one t.response call: a call with no
argument is skipped (neither a response nor a reason to go dynamic); a
failing evaluation marks the action dynamic; otherwise a StaticResponse is
produced. -/
inductive CallOutcome where
  | skipped
  | dynamic
  | produced (r : StaticResponse)

/-- analyze_response_call from fast_path.rs: evaluate the body (spread
aborts as dynamic), then the optional options argument (a spread second
argument counts as absent), then serialize according to the method: json
serializes the value, text and html require a string body. -/
def analyze_response_call (sem : Semantic) (method : String) (args : List Arg) :
    CallOutcome :=
  match args.head? with
  | none => .skipped
  | some .spread => .dynamic
  | some (.expr body_expr) =>
      let opts_expr : Option Expr :=
        match args.get? 1 with
        | some (.expr e) => some e
        | _ => none
      match eval_static sem 0 body_expr with
      | none => .dynamic
      | some body_value =>
          let opts : Option ResponseOptions :=
            match opts_expr with
            | some oe => (eval_static sem 0 oe).map extract_response_options
            | none => some ⟨200, []⟩
          match opts with
          | none => .dynamic
          | some options =>
              let ser : Option (String × String) :=
                if method == "json" then some (json_serialize body_value, "application/json")
                else if method == "text" then (jAsStr body_value).map (fun s => (s, "text/plain"))
                else if method == "html" then (jAsStr body_value).map (fun s => (s, "text/html"))
                else none
              match ser with
              | none => .dynamic
              | some bc => .produced ⟨bc.1, bc.2, options.status, options.headers⟩

/-- unique_response from fast_path.rs: some response iff the list is
non-empty and all entries equal the first. -/
def unique_response (responses : List StaticResponse) : Option StaticResponse :=
  match responses with
  | [] => none
  | first :: _ =>
      if responses.all (fun r => r == first) then some first else none

/-- The t.response calls of the node walk, with their detected method. -/
def response_calls (sem : Semantic) : List (String × List Arg) :=
  sem.nodes.filterMap (fun n =>
    match n with
    | .callNode callee args => (detect_response_method callee).map (fun m => (m, args))
    | _ => none)

/-- Accumulation step of the call walk: push produced responses, raise the
dynamic flag on a failure, skip argument-less calls. -/
def analyze_step (sem : Semantic) (acc : List StaticResponse × Bool)
    (c : String × List Arg) : List StaticResponse × Bool :=
  match analyze_response_call sem c.1 c.2 with
  | .skipped => acc
  | .dynamic => (acc.1, true)
  | .produced r => (acc.1 ++ [r], acc.2)

/-- analyze_action_source from fast_path.rs: parse failure is dynamic; walk
every call expression for t.response calls; if anything was dynamic or no
response was produced the action is dynamic; otherwise all responses must
be structurally equal. -/
def analyze_action_source (p : ParseResult) : Option StaticResponse :=
  match p with
  | .panicked => none
  | .parsed sem =>
      let st := (response_calls sem).foldl (analyze_step sem) ([], false)
      if st.2 || st.1.isEmpty then none else unique_response st.1

/-- Whether a call outcome marked the action dynamic. -/
def is_dynamic_outcome : CallOutcome → Bool
  | .dynamic => true
  | _ => false

/-- The responses produced by a list of call outcomes, in call order. -/
def produced_of : List CallOutcome → List StaticResponse :=
  List.filterMap (fun o =>
    match o with
    | .produced r => some r
    | _ => none)

/-- Outcomes of all t.response calls of a program, in node order. -/
def call_outcomes (sem : Semantic) : List CallOutcome :=
  (response_calls sem).map (fun c => analyze_response_call sem c.1 c.2)

theorem analyze_fold (sem : Semantic) (cs : List (String × List Arg))
    (acc : List StaticResponse × Bool) :
    cs.foldl (analyze_step sem) acc
      = (acc.1 ++ produced_of (cs.map (fun c => analyze_response_call sem c.1 c.2)),
         acc.2 || (cs.map (fun c => analyze_response_call sem c.1 c.2)).any
            is_dynamic_outcome) := by
  induction cs generalizing acc with
  | nil => simp [produced_of]
  | cons c cs ih =>
      cases h : analyze_response_call sem c.1 c.2 with
      | skipped =>
          simp [List.foldl_cons, analyze_step, h, ih, produced_of, is_dynamic_outcome]
      | dynamic =>
          simp [List.foldl_cons, analyze_step, h, ih, produced_of, is_dynamic_outcome]
      | produced r =>
          simp [List.foldl_cons, analyze_step, h, ih, produced_of, is_dynamic_outcome]

theorem unique_response_some (rs : List StaticResponse) (r : StaticResponse)
    (h : unique_response rs = some r) : ∀ x ∈ rs, x = r := by
  cases rs with
  | nil => simp [unique_response] at h
  | cons first rest =>
      by_cases hall : (first :: rest).all (fun x => x == first)
      · have hr : r = first := by
          simp [unique_response, hall] at h
          exact h.symm
        subst hr
        intro x hx
        have := (List.all_eq_true.mp hall) x hx
        simpa using this
      · simp [unique_response, hall] at h

theorem unique_response_none_of_ne (rs : List StaticResponse)
    (h : ¬ ∀ x ∈ rs, ∀ y ∈ rs, x = y) : unique_response rs = none := by
  cases rs with
  | nil => exact absurd (by simp) h
  | cons first rest =>
      by_cases hall : (first :: rest).all (fun x => x == first)
      · exfalso
        apply h
        intro x hx y hy
        have hx2 := (List.all_eq_true.mp hall) x hx
        have hy2 := (List.all_eq_true.mp hall) y hy
        simp at hx2 hy2
        rw [hx2, hy2]
      · simp [unique_response, hall]

/-- C3: if any t.response call fails static evaluation the analyzer answers
none; when it answers some response, every produced response equals it
(structural equality of body, content type, status and extra headers); and
with no failures but two differing produced responses it answers none. -/
theorem analyze_action_source_C3 (sem : Semantic) :
    ((call_outcomes sem).any is_dynamic_outcome = true →
      analyze_action_source (.parsed sem) = none)
    ∧ (∀ r, analyze_action_source (.parsed sem) = some r →
        ∀ x ∈ produced_of (call_outcomes sem), x = r)
    ∧ ((call_outcomes sem).any is_dynamic_outcome = false →
        (¬ ∀ x ∈ produced_of (call_outcomes sem),
            ∀ y ∈ produced_of (call_outcomes sem), x = y) →
        analyze_action_source (.parsed sem) = none) := by
  have hst : (response_calls sem).foldl (analyze_step sem) ([], false)
      = (produced_of (call_outcomes sem),
         (call_outcomes sem).any is_dynamic_outcome) := by
    simpa [call_outcomes] using analyze_fold sem (response_calls sem) ([], false)
  refine ⟨?_, ?_, ?_⟩
  · intro hdyn
    simp [analyze_action_source, hst, hdyn]
  · intro r hr
    simp only [analyze_action_source, hst] at hr
    by_cases hc : ((call_outcomes sem).any is_dynamic_outcome
        || (produced_of (call_outcomes sem)).isEmpty) = true
    · simp [hc] at hr
    · simp only [Bool.not_eq_true] at hc
      rw [hc] at hr
      simp only [if_false, Bool.false_eq_true] at hr
      exact unique_response_some _ _ hr
  · intro hdyn hne
    simp only [analyze_action_source, hst, hdyn, Bool.false_or]
    by_cases he : (produced_of (call_outcomes sem)).isEmpty
    · simp [he]
    · simp only [he, Bool.false_eq_true, if_false]
      exact unique_response_none_of_ne _ hne

/-- A dynamic program for the C3 witness: one t.response.json call whose
argument is an unresolved identifier reference. -/
def semW3 : Semantic :=
  ⟨[], [ANode.callNode
          (Expr.staticMember
            (Expr.staticMember (Expr.ident "t" none) "response") "json")
          [Arg.expr (Expr.ident "x" none)]]⟩

theorem analyze_action_source_C3_witness :
    (call_outcomes semW3).any is_dynamic_outcome = true
    ∧ analyze_action_source (.parsed semW3) = none := by
  have hdyn : (call_outcomes semW3).any is_dynamic_outcome = true := by
    simp [call_outcomes, response_calls, semW3, detect_response_method,
      analyze_response_call, eval_static, resolve_identifier, is_dynamic_outcome]
  exact ⟨hdyn, (analyze_action_source_C3 semW3).1 hdyn⟩

/-- C4: identifier resolution through the symbol table fails for a symbol
with any write after its declaration, and for a symbol bound to an array or
object literal mutated anywhere in the AST (a mutating method call on it,
an assignment to a static or computed member of it, or a delete of a member
of it, per node_mutates); otherwise the initializer of the declaration is
evaluated recursively at depth + 1. -/
theorem resolve_identifier_C4 (sem : Semantic) (depth sid : Nat)
    (info : SymbolInfo) (hs : sem.symbols[sid]? = some info) :
    (is_object_mutated_in_ast sid sem = true
        ↔ ∃ n ∈ sem.nodes, node_mutates sid n = true)
    ∧ (info.mutated = true → resolve_identifier sem depth (some sid) = none)
    ∧ (∀ init, info.decl = .varDecl (some init) →
        is_arr_or_obj_literal init = true →
        is_object_mutated_in_ast sid sem = true →
        resolve_identifier sem depth (some sid) = none)
    ∧ (info.mutated = false → depth ≤ MAX_EVAL_DEPTH →
        ∀ init, info.decl = .varDecl (some init) →
        (is_arr_or_obj_literal init = true →
          is_object_mutated_in_ast sid sem = false) →
        resolve_identifier sem depth (some sid) = eval_static sem (depth + 1) init) := by
  refine ⟨?_, ?_, ?_, ?_⟩
  · simp [is_object_mutated_in_ast, List.any_eq_true]
  · intro hm
    by_cases hd : depth > MAX_EVAL_DEPTH
    · simp [resolve_identifier, hd]
    · simp [resolve_identifier, hd, hs, hm]
  · intro init hdecl harr hmut
    by_cases hd : depth > MAX_EVAL_DEPTH
    · simp [resolve_identifier, hd]
    · cases hm : info.mutated with
      | true => simp [resolve_identifier, hd, hs, hm]
      | false => simp [resolve_identifier, hd, hs, hm, hdecl, harr, hmut]
  · intro hm hd init hdecl hnomut
    have hd2 : ¬ depth > MAX_EVAL_DEPTH := by omega
    by_cases harr : is_arr_or_obj_literal init = true
    · have hmut := hnomut harr
      simp [resolve_identifier, hd2, hs, hm, hdecl, harr, hmut]
    · simp only [Bool.not_eq_true] at harr
      simp [resolve_identifier, hd2, hs, hm, hdecl, harr]

/-- Symbol entry for the C4 witness: a reassigned symbol. -/
def infoW4 : SymbolInfo := ⟨true, .varDecl (some (Expr.strLit "v"))⟩

/-- Program for the C4 witness. -/
def semW4 : Semantic := ⟨[infoW4], []⟩

theorem resolve_identifier_C4_witness :
    semW4.symbols[0]? = some infoW4
    ∧ infoW4.mutated = true
    ∧ resolve_identifier semW4 0 (some 0) = none :=
  ⟨rfl, rfl, (resolve_identifier_C4 semW4 0 0 infoW4 rfl).2.1 rfl⟩

/-- C5 as amended: an action source containing no t.response.{json,text,
html} calls is always dynamic; the analyzer has no fallback to plain return
statements. -/
theorem analyze_action_source_C5_amended (sem : Semantic)
    (h : response_calls sem = []) :
    analyze_action_source (.parsed sem) = none := by
  simp [analyze_action_source, h]

/-- A program that is exactly a plain static return: one return statement
whose argument is the object literal with message Hello, World!, and no
t.response calls. -/
def semW5 : Semantic :=
  ⟨[], [ANode.returnNode (some (Expr.objLit
      [ObjProp.prop (PropKey.staticIdent "message") (Expr.strLit "Hello, World!")]))]⟩

/-- C5 counterexample: on the plain-return program the analyzer answers
none, although the returned object literal is statically evaluable — there
is no fallback that could produce a StaticResponse from it, contrary to
the claim. -/
theorem analyze_action_source_C5_counterexample :
    analyze_action_source (.parsed semW5) = none
    ∧ eval_static semW5 0 (Expr.objLit
        [ObjProp.prop (PropKey.staticIdent "message") (Expr.strLit "Hello, World!")])
      = some (JValue.obj [("message", JValue.str "Hello, World!")]) := by
  constructor
  · simp [analyze_action_source, response_calls, semW5]
  · simp [eval_static, eval_props, property_key_to_string, map_from_pairs,
      alInsert, MAX_EVAL_DEPTH]

theorem analyze_action_source_C5_witness :
    response_calls semW5 = []
    ∧ analyze_action_source (.parsed semW5) = none := by
  have h : response_calls semW5 = [] := by simp [response_calls, semW5]
  exact ⟨h, analyze_action_source_C5_amended semW5 h⟩

theorem eval_static_str (sem : Semantic) (s : String) :
    eval_static sem 0 (Expr.strLit s) = some (JValue.str s) := by
  rw [eval_static]
  norm_num [MAX_EVAL_DEPTH]

theorem call_static_text (sem : Semantic) (s : String) :
    analyze_response_call sem "text" [Arg.expr (Expr.strLit s)]
      = .produced ⟨s, "text/plain", 200, []⟩ := by
  simp only [analyze_response_call, List.head?, eval_static_str]
  rfl

theorem unique_response_singleton (r : StaticResponse) :
    unique_response [r] = some r := by
  simp [unique_response]

/-- Program mirroring the shape of the test_literal_text test of
fast_path.rs: a single call t.response.text with a string literal. -/
def semText : Semantic :=
  ⟨[], [ANode.callNode
          (Expr.staticMember
            (Expr.staticMember (Expr.ident "t" none) "response") "text")
          [Arg.expr (Expr.strLit "Hello, World!")]]⟩

/-- Sanity check of the embedding on the accepting path: the static text
action is accepted with its body, content type text/plain, status 200 and
no extra headers. -/
theorem analyze_static_sanity :
    analyze_action_source (.parsed semText)
      = some ⟨"Hello, World!", "text/plain", 200, []⟩ := by
  have hcalls : response_calls semText
      = [("text", [Arg.expr (Expr.strLit "Hello, World!")])] := by
    simp [response_calls, semText, detect_response_method]
  simp only [analyze_action_source, hcalls, List.foldl, analyze_step,
    call_static_text]
  simp [unique_response_singleton]

/-- Program with two t.response.text calls returning different constants
(conditional branches returning different values). -/
def semConflict : Semantic :=
  ⟨[], [ANode.callNode
          (Expr.staticMember
            (Expr.staticMember (Expr.ident "t" none) "response") "text")
          [Arg.expr (Expr.strLit "a")],
        ANode.callNode
          (Expr.staticMember
            (Expr.staticMember (Expr.ident "t" none) "response") "text")
          [Arg.expr (Expr.strLit "b")]]⟩

/-- Sanity check of the equality requirement: two branches with different
constant responses make the action dynamic. -/
theorem analyze_conflict_sanity :
    analyze_action_source (.parsed semConflict) = none := by
  have hcalls : response_calls semConflict
      = [("text", [Arg.expr (Expr.strLit "a")]),
         ("text", [Arg.expr (Expr.strLit "b")])] := by
    simp [response_calls, semConflict, detect_response_method]
  simp only [analyze_action_source, hcalls, List.foldl, analyze_step,
    call_static_text]
  simp [unique_response]

end Titan
